import Mathlib

/-!
Shallow embedding of the Module 2 signal-logic decision engine
(`module_2_signal_logic`): priority scoring, cycle scheduling with the
anti-starvation rule, the lane timing store, and the signal controller.
Timestamps and float-valued quantities are modelled over `ℚ`; Python dicts
with `.get` defaults are modelled as total functions, and dicts whose key
set matters are modelled as association lists.
-/

namespace TrafficOpt

/-- One scored lane, mirroring `PriorityBreakdown` in `core/models.py`. -/
structure PriorityBreakdown where
  lane : String
  vehicle_count : ℤ
  waiting_time : ℚ
  cooldown_penalty : ℚ
  vehicle_gap : ℚ
  forecast_count : ℚ
  score : ℚ
  deriving DecidableEq, Repr

instance : Inhabited PriorityBreakdown :=
  ⟨⟨"", 0, 0, 0, 0, 0, 0⟩⟩

/-- Python lexicographic `<=` on the 3-tuples used as sorting keys. -/
def tripleLe (x y : ℚ × ℚ × ℚ) : Prop :=
  x.1 < y.1 ∨ (x.1 = y.1 ∧ (x.2.1 < y.2.1 ∨ (x.2.1 = y.2.1 ∧ x.2.2 ≤ y.2.2)))

instance : DecidableRel tripleLe := by
  intro x y
  unfold tripleLe
  infer_instance

/-- The sorting key `(item.score, item.waiting_time, item.vehicle_count)`
from `PriorityEngine.score_lanes` and `SignalScheduler.next_cycle`. -/
def rankKey (b : PriorityBreakdown) : ℚ × ℚ × ℚ :=
  (b.score, b.waiting_time, (b.vehicle_count : ℚ))

/-- `keyGE a b` holds when `a` sorts no later than `b` in the descending
order used by `sorted(..., key=_sorting_key, reverse=True)`. -/
def keyGE (a b : PriorityBreakdown) : Prop :=
  tripleLe (rankKey b) (rankKey a)

instance : DecidableRel keyGE := by
  intro a b
  unfold keyGE
  infer_instance

theorem tripleLe_total (x y : ℚ × ℚ × ℚ) : tripleLe x y ∨ tripleLe y x := by
  unfold tripleLe
  rcases lt_trichotomy x.1 y.1 with h1 | h1 | h1
  · exact Or.inl (Or.inl h1)
  · rcases lt_trichotomy x.2.1 y.2.1 with h2 | h2 | h2
    · exact Or.inl (Or.inr ⟨h1, Or.inl h2⟩)
    · rcases le_total x.2.2 y.2.2 with h3 | h3
      · exact Or.inl (Or.inr ⟨h1, Or.inr ⟨h2, h3⟩⟩)
      · exact Or.inr (Or.inr ⟨h1.symm, Or.inr ⟨h2.symm, h3⟩⟩)
    · exact Or.inr (Or.inr ⟨h1.symm, Or.inl h2⟩)
  · exact Or.inr (Or.inl h1)

theorem tripleLe_trans {x y z : ℚ × ℚ × ℚ}
    (hxy : tripleLe x y) (hyz : tripleLe y z) : tripleLe x z := by
  unfold tripleLe at *
  rcases hxy with h1 | ⟨h1, h2⟩
  · rcases hyz with g1 | ⟨g1, _⟩
    · exact Or.inl (h1.trans g1)
    · exact Or.inl (g1 ▸ h1)
  · rcases hyz with g1 | ⟨g1, g2⟩
    · exact Or.inl (h1 ▸ g1)
    · refine Or.inr ⟨h1.trans g1, ?_⟩
      rcases h2 with h2 | ⟨h2, h3⟩
      · rcases g2 with g2 | ⟨g2, _⟩
        · exact Or.inl (h2.trans g2)
        · exact Or.inl (g2 ▸ h2)
      · rcases g2 with g2 | ⟨g2, g3⟩
        · exact Or.inl (h2 ▸ g2)
        · exact Or.inr ⟨h2.trans g2, h3.trans g3⟩

instance : IsTotal PriorityBreakdown keyGE :=
  ⟨fun a b => tripleLe_total (rankKey b) (rankKey a)⟩

instance : IsTrans PriorityBreakdown keyGE :=
  ⟨fun _ _ _ hab hbc => tripleLe_trans hbc hab⟩

/-- Python's stable `sorted(items, key=rankKey, reverse=True)`: a stable
sort wrt the total preorder `keyGE` (insertion sort realises exactly the
stable descending order CPython produces). -/
def sortByKeyDesc (l : List PriorityBreakdown) : List PriorityBreakdown :=
  List.insertionSort keyGE l

/-- Weights held by `PriorityEngine.__init__`. -/
structure EngineConfig where
  density_weight : ℚ
  wait_weight : ℚ
  cooldown_penalty : ℚ
  gap_weight : ℚ
  forecast_weight : ℚ
  deriving DecidableEq, Repr

/-- The per-lane body of the loop in `PriorityEngine.score_lanes`:
clamp every input at zero and combine them with the configured weights. -/
def mkBreakdown (cfg : EngineConfig) (counts : String → ℤ)
    (waiting cooldowns gaps forecasts : String → ℚ) (lane : String) :
    PriorityBreakdown :=
  let c : ℤ := max (counts lane) 0
  let w : ℚ := max (waiting lane) 0
  let p : ℚ := max (cooldowns lane) 0
  let g : ℚ := max (gaps lane) 0
  let f : ℚ := max (forecasts lane) 0
  { lane := lane
    vehicle_count := c
    waiting_time := w
    cooldown_penalty := p
    vehicle_gap := g
    forecast_count := f
    score := (c : ℚ) * cfg.density_weight + w * cfg.wait_weight
      + cfg.gap_weight / (1 + g) + f * cfg.forecast_weight
      - p * cfg.cooldown_penalty }

/-- `PriorityEngine.score_lanes`: build a breakdown per lane, then sort
descending by `(score, waiting_time, vehicle_count)`. -/
def score_lanes (cfg : EngineConfig) (lanes : List String)
    (counts : String → ℤ) (waiting cooldowns gaps forecasts : String → ℚ) :
    List PriorityBreakdown :=
  sortByKeyDesc (lanes.map (mkBreakdown cfg counts waiting cooldowns gaps forecasts))

/-- C3: `PriorityEngine.score_lanes` scores every lane as
`density_weight·c + wait_weight·w + gap_weight/(1+g) + forecast_weight·f −
cooldown_penalty_weight·p` over the clamped-non-negative inputs recorded in
its breakdown, and returns the breakdowns of all input lanes sorted
descending by the key `(score, waiting_time, vehicle_count)` (ties broken
by longer wait, then larger count); being a pure function of its inputs,
identical inputs yield the identical ordered list. -/
theorem score_lanes_spec (cfg : EngineConfig) (lanes : List String)
    (counts : String → ℤ) (waiting cooldowns gaps forecasts : String → ℚ) :
    (∀ b ∈ score_lanes cfg lanes counts waiting cooldowns gaps forecasts,
      b.lane ∈ lanes ∧
      b.vehicle_count = max (counts b.lane) 0 ∧
      b.waiting_time = max (waiting b.lane) 0 ∧
      b.cooldown_penalty = max (cooldowns b.lane) 0 ∧
      b.vehicle_gap = max (gaps b.lane) 0 ∧
      b.forecast_count = max (forecasts b.lane) 0 ∧
      b.score = cfg.density_weight * (b.vehicle_count : ℚ)
        + cfg.wait_weight * b.waiting_time
        + cfg.gap_weight / (1 + b.vehicle_gap)
        + cfg.forecast_weight * b.forecast_count
        - cfg.cooldown_penalty * b.cooldown_penalty) ∧
    (score_lanes cfg lanes counts waiting cooldowns gaps forecasts).Sorted keyGE ∧
    List.Perm (score_lanes cfg lanes counts waiting cooldowns gaps forecasts)
      (lanes.map (mkBreakdown cfg counts waiting cooldowns gaps forecasts)) := by
  refine ⟨?_, ?_, ?_⟩
  · intro b hb
    have hb2 : b ∈ lanes.map (mkBreakdown cfg counts waiting cooldowns gaps forecasts) :=
      (List.perm_insertionSort keyGE _).mem_iff.mp hb
    obtain ⟨l, hl, rfl⟩ := List.mem_map.mp hb2
    refine ⟨hl, rfl, rfl, rfl, rfl, rfl, ?_⟩
    show (mkBreakdown cfg counts waiting cooldowns gaps forecasts l).score = _
    simp only [mkBreakdown]
    ring
  · exact List.sorted_insertionSort keyGE _
  · exact List.perm_insertionSort keyGE _

/-- Scheduler timing constants, mirroring `SchedulerConfig` in
`core/scheduler.py`. -/
structure SchedulerConfig where
  base_green : ℚ
  min_green : ℚ
  max_green : ℚ
  scaling_factor : ℚ
  deriving DecidableEq, Repr

/-- The mutable memory of `SignalScheduler`: the cycle counter and the
lane chosen by the previous call. -/
structure SchedulerState where
  cycle_counter : ℕ
  last_green_lane : Option String
  deriving DecidableEq, Repr

/-- One scheduling decision, mirroring `CycleDecision` in `core/models.py`. -/
structure CycleDecision where
  cycle_id : ℕ
  decided_at : ℚ
  green_lane : String
  green_duration : ℚ
  priorities : List PriorityBreakdown
  effective_from : ℚ
  effective_until : ℚ
  deriving DecidableEq, Repr

/-- The anti-starvation selection in `SignalScheduler.next_cycle`: pick the
top-ranked breakdown, demoting to the second-ranked one when the previous
lane is truthy (a non-empty string in Python), equals the top lane, and
more than one lane is available.  `none` corresponds to the `ValueError`
raised on an empty priorities mapping. -/
def pickGreen (last : Option String) :
    List PriorityBreakdown → Option PriorityBreakdown
  | [] => none
  | [top] => some top
  | top :: second :: _ =>
      some (match last with
        | some prev => if prev ≠ "" ∧ top.lane = prev then second else top
        | none => top)

/-- `sum(max(b.vehicle_count, 0) for b in priorities.values())`. -/
def clampedTotal (ps : List PriorityBreakdown) : ℤ :=
  (ps.map (fun b => max b.vehicle_count 0)).sum

/-- `max(min_green, min(max_green, proposed))`. -/
def clampDuration (cfg : SchedulerConfig) (proposed : ℚ) : ℚ :=
  max cfg.min_green (min cfg.max_green proposed)

/-- `ratio = winner.vehicle_count / total (or 0)`, then
`proposed = base_green + ratio * scaling_factor`, clamped into
`[min_green, max_green]` — the duration computation of `next_cycle`. -/
def durationFor (cfg : SchedulerConfig) (ps : List PriorityBreakdown)
    (chosen : PriorityBreakdown) : ℚ :=
  clampDuration cfg (cfg.base_green +
    (if clampedTotal ps = 0 then 0
     else (chosen.vehicle_count : ℚ) / (clampedTotal ps : ℚ)) * cfg.scaling_factor)

/-- `SignalScheduler.next_cycle`.  The input list carries the values of
the `priorities` dict in insertion order; `none` models the raised
`ValueError` on an empty mapping. -/
def next_cycle (cfg : SchedulerConfig) (st : SchedulerState)
    (ps : List PriorityBreakdown) (decided_at : ℚ) :
    Option (CycleDecision × SchedulerState) :=
  match pickGreen st.last_green_lane (sortByKeyDesc ps) with
  | none => none
  | some chosen =>
      some
        ({ cycle_id := st.cycle_counter + 1
           decided_at := decided_at
           green_lane := chosen.lane
           green_duration := durationFor cfg ps chosen
           priorities := sortByKeyDesc ps
           effective_from := decided_at
           effective_until := decided_at + durationFor cfg ps chosen },
         { cycle_counter := st.cycle_counter + 1
           last_green_lane := some chosen.lane })

theorem pickGreen_mem {last : Option String} {l : List PriorityBreakdown}
    {c : PriorityBreakdown} (h : pickGreen last l = some c) : c ∈ l := by
  match l with
  | [] => simp [pickGreen] at h
  | [top] =>
      simp only [pickGreen, Option.some.injEq] at h
      simp [h.symm]
  | top :: second :: rest =>
      cases last with
      | none =>
          simp only [pickGreen, Option.some.injEq] at h
          simp [h.symm]
      | some prev =>
          simp only [pickGreen, Option.some.injEq] at h
          by_cases hc : prev ≠ "" ∧ top.lane = prev
          · rw [if_pos hc] at h
            simp [h.symm]
          · rw [if_neg hc] at h
            simp [h.symm]

theorem pickGreen_head_or_second {last : Option String}
    {l : List PriorityBreakdown} {c : PriorityBreakdown}
    (h : pickGreen last l = some c) :
    ∃ top rest, l = top :: rest ∧
      (c = top ∨ ∃ second rest2, rest = second :: rest2 ∧ c = second) := by
  match l with
  | [] => simp [pickGreen] at h
  | [top] =>
      simp only [pickGreen, Option.some.injEq] at h
      exact ⟨top, [], rfl, Or.inl h.symm⟩
  | top :: second :: rest =>
      refine ⟨top, second :: rest, rfl, ?_⟩
      cases last with
      | none =>
          simp only [pickGreen, Option.some.injEq] at h
          exact Or.inl h.symm
      | some prev =>
          simp only [pickGreen, Option.some.injEq] at h
          by_cases hc : prev ≠ "" ∧ top.lane = prev
          · rw [if_pos hc] at h
            exact Or.inr ⟨second, rest, rfl, h.symm⟩
          · rw [if_neg hc] at h
            exact Or.inl h.symm

theorem pickGreen_isSome (last : Option String) {l : List PriorityBreakdown}
    (h : l ≠ []) : ∃ c, pickGreen last l = some c := by
  match l with
  | [] => exact absurd rfl h
  | [top] => exact ⟨top, rfl⟩
  | top :: second :: rest =>
      cases last with
      | none => exact ⟨top, rfl⟩
      | some prev => exact ⟨_, rfl⟩

theorem next_cycle_some_elim {cfg : SchedulerConfig} {st : SchedulerState}
    {ps : List PriorityBreakdown} {t : ℚ} {d : CycleDecision}
    {st2 : SchedulerState}
    (h : next_cycle cfg st ps t = some (d, st2)) :
    ∃ chosen, pickGreen st.last_green_lane (sortByKeyDesc ps) = some chosen ∧
      d = { cycle_id := st.cycle_counter + 1
            decided_at := t
            green_lane := chosen.lane
            green_duration := durationFor cfg ps chosen
            priorities := sortByKeyDesc ps
            effective_from := t
            effective_until := t + durationFor cfg ps chosen } ∧
      st2 = { cycle_counter := st.cycle_counter + 1
              last_green_lane := some chosen.lane } := by
  unfold next_cycle at h
  cases hpick : pickGreen st.last_green_lane (sortByKeyDesc ps) with
  | none => rw [hpick] at h; exact absurd h (by simp)
  | some chosen =>
      rw [hpick] at h
      simp only [Option.some.injEq, Prod.mk.injEq] at h
      exact ⟨chosen, rfl, h.1.symm, h.2.symm⟩

theorem sortByKeyDesc_perm (l : List PriorityBreakdown) :
    List.Perm (sortByKeyDesc l) l :=
  List.perm_insertionSort keyGE l

/-- C4: every successful `next_cycle` call emits a `green_duration` lying
in `[min_green, max_green]` (for a configuration whose bounds are
ordered), and that duration is exactly
`clamp(base_green + ratio·scaling_factor, min_green, max_green)` where
`ratio` is the winner's count over the clamped total (0 when the total is
0); when all counts are non-negative the clamped total coincides with the
plain sum of all vehicle counts. -/
theorem scheduler_green_duration_bounds
    (cfg : SchedulerConfig) (st : SchedulerState) (ps : List PriorityBreakdown)
    (t : ℚ) (d : CycleDecision) (st2 : SchedulerState)
    (hbounds : cfg.min_green ≤ cfg.max_green)
    (h : next_cycle cfg st ps t = some (d, st2)) :
    cfg.min_green ≤ d.green_duration ∧ d.green_duration ≤ cfg.max_green ∧
    ∃ w, w ∈ ps ∧ w.lane = d.green_lane ∧
      d.green_duration = clampDuration cfg (cfg.base_green +
        (if clampedTotal ps = 0 then 0
         else (w.vehicle_count : ℚ) / (clampedTotal ps : ℚ)) * cfg.scaling_factor) ∧
      ((∀ b ∈ ps, 0 ≤ b.vehicle_count) →
        clampedTotal ps = (ps.map (fun b => b.vehicle_count)).sum) := by
  obtain ⟨chosen, hpick, hd, hst⟩ := next_cycle_some_elim h
  have hmem : chosen ∈ ps := (sortByKeyDesc_perm ps).mem_iff.mp (pickGreen_mem hpick)
  have hdur : d.green_duration = durationFor cfg ps chosen := by rw [hd]
  have hlane : d.green_lane = chosen.lane := by rw [hd]
  refine ⟨?_, ?_, chosen, hmem, hlane.symm, ?_, ?_⟩
  · rw [hdur]
    exact le_max_left _ _
  · rw [hdur]
    exact max_le hbounds (min_le_left _ _)
  · rw [hdur]
    rfl
  · intro hnn
    unfold clampedTotal
    congr 1
    exact List.map_congr_left fun b hb => max_eq_left (hnn b hb)

/-- C4 witness: a concrete call whose duration obeys the bounds. -/
theorem scheduler_green_duration_bounds_witness :
    (⟨20, 10, 60, 20⟩ : SchedulerConfig).min_green ≤
      (⟨20, 10, 60, 20⟩ : SchedulerConfig).max_green ∧
    ∃ d st2,
      next_cycle ⟨20, 10, 60, 20⟩ ⟨0, none⟩ [⟨"north", 2, 3, 0, 0, 0, 5⟩] 0 =
        some (d, st2) ∧
      (10 : ℚ) ≤ d.green_duration ∧ d.green_duration ≤ (60 : ℚ) := by
  have hbounds : (⟨20, 10, 60, 20⟩ : SchedulerConfig).min_green ≤
      (⟨20, 10, 60, 20⟩ : SchedulerConfig).max_green := by norm_num
  obtain ⟨⟨d, st2⟩, hp⟩ :
      ∃ p, next_cycle ⟨20, 10, 60, 20⟩ ⟨0, none⟩
        [⟨"north", 2, 3, 0, 0, 0, 5⟩] 0 = some p := ⟨_, rfl⟩
  have h := scheduler_green_duration_bounds ⟨20, 10, 60, 20⟩ ⟨0, none⟩
    [⟨"north", 2, 3, 0, 0, 0, 5⟩] 0 d st2 hbounds hp
  exact ⟨hbounds, d, st2, hp, h.1, h.2.1⟩

/-- C8: every emitted `CycleDecision` has `cycle_id` equal to the
post-incremented counter (so successive decisions have ids increasing by
exactly 1), `effective_from = decided_at` (the call's timestamp),
`effective_until = decided_at + green_duration`, and a `priorities` field
holding the full pre-anti-starvation rank order of all input lanes, while
the chosen `green_lane` is the lane of either the first or the second
entry of that list (the possibly-demoted winner). -/
theorem scheduler_decision_fields
    (cfg : SchedulerConfig) (st : SchedulerState) (ps : List PriorityBreakdown)
    (t : ℚ) (d : CycleDecision) (st2 : SchedulerState)
    (h : next_cycle cfg st ps t = some (d, st2)) :
    d.cycle_id = st.cycle_counter + 1 ∧
    st2.cycle_counter = st.cycle_counter + 1 ∧
    d.decided_at = t ∧
    d.effective_from = d.decided_at ∧
    d.effective_until = d.decided_at + d.green_duration ∧
    d.priorities = sortByKeyDesc ps ∧
    st2.last_green_lane = some d.green_lane ∧
    (∀ ps2 t2 d2 st3, next_cycle cfg st2 ps2 t2 = some (d2, st3) →
      d2.cycle_id = d.cycle_id + 1) ∧
    (∀ top rest, d.priorities = top :: rest →
      d.green_lane = top.lane ∨
      ∃ second rest2, rest = second :: rest2 ∧ d.green_lane = second.lane) := by
  obtain ⟨chosen, hpick, hd, hst⟩ := next_cycle_some_elim h
  subst hd
  subst hst
  refine ⟨rfl, rfl, rfl, rfl, rfl, rfl, rfl, ?_, ?_⟩
  · intro ps2 t2 d2 st3 h2
    obtain ⟨c2, _, hd2, _⟩ := next_cycle_some_elim h2
    rw [hd2]
  · intro top rest hpri
    obtain ⟨top2, rest2, hsort, hcases⟩ := pickGreen_head_or_second hpick
    have heq : top2 = top ∧ rest2 = rest := by
      have : top2 :: rest2 = top :: rest := by
        rw [← hsort]
        exact hpri
      exact ⟨by injection this, by injection this⟩
    obtain ⟨rfl, rfl⟩ := heq
    rcases hcases with hc | ⟨second, rest3, hr, hc⟩
    · exact Or.inl (by rw [hc])
    · exact Or.inr ⟨second, rest3, hr, by rw [hc]⟩

/-- C8 witness: a concrete call, with the field facts extracted through
the theorem. -/
theorem scheduler_decision_fields_witness :
    ∃ d st2,
      next_cycle ⟨20, 10, 60, 20⟩ ⟨4, none⟩ [⟨"east", 1, 2, 0, 0, 0, 7⟩] 3 =
        some (d, st2) ∧
      d.cycle_id = 5 ∧ st2.cycle_counter = 5 ∧ d.decided_at = 3 ∧
      d.effective_from = d.decided_at ∧
      d.effective_until = d.decided_at + d.green_duration := by
  obtain ⟨⟨d, st2⟩, hp⟩ :
      ∃ p, next_cycle ⟨20, 10, 60, 20⟩ ⟨4, none⟩
        [⟨"east", 1, 2, 0, 0, 0, 7⟩] 3 = some p := ⟨_, rfl⟩
  have h := scheduler_decision_fields ⟨20, 10, 60, 20⟩ ⟨4, none⟩
    [⟨"east", 1, 2, 0, 0, 0, 7⟩] 3 d st2 hp
  exact ⟨d, st2, hp, h.1, h.2.1, h.2.2.1, h.2.2.2.1, h.2.2.2.2.1⟩

/-- C1 (amended): across two consecutive successful `next_cycle` calls
with at least two lanes present both times and pairwise-distinct lane ids
(guaranteed by the dict keying in the source), the second chosen
`green_lane` differs from the first — provided the first chosen lane is a
non-empty string, because the source guards the anti-starvation rule with
Python truthiness of `_last_green_lane` — and the previous-selection
memory is updated to the second call's chosen lane. -/
theorem scheduler_alternation
    (cfg : SchedulerConfig) (st : SchedulerState)
    (ps1 ps2 : List PriorityBreakdown) (t1 t2 : ℚ)
    (d1 d2 : CycleDecision) (st1 st2 : SchedulerState)
    (h1 : next_cycle cfg st ps1 t1 = some (d1, st1))
    (h2 : next_cycle cfg st1 ps2 t2 = some (d2, st2))
    (hlen1 : 2 ≤ ps1.length) (hlen2 : 2 ≤ ps2.length)
    (hnodup : (ps2.map (fun b => b.lane)).Nodup)
    (hne : d1.green_lane ≠ "") :
    d2.green_lane ≠ d1.green_lane ∧
    st2.last_green_lane = some d2.green_lane := by
  obtain ⟨c1, hp1, hd1, hs1⟩ := next_cycle_some_elim h1
  obtain ⟨c2, hp2, hd2, hs2⟩ := next_cycle_some_elim h2
  have hg1 : d1.green_lane = c1.lane := by rw [hd1]
  have hg2 : d2.green_lane = c2.lane := by rw [hd2]
  have hlast : st1.last_green_lane = some c1.lane := by rw [hs1]
  refine ⟨?_, by rw [hs2, hg2]⟩
  rw [hg1, hg2]
  have hlen : 2 ≤ (sortByKeyDesc ps2).length := by
    unfold sortByKeyDesc
    rw [List.length_insertionSort]
    exact hlen2
  obtain ⟨top, second, rest, hsort⟩ :
      ∃ top second rest, sortByKeyDesc ps2 = top :: second :: rest := by
    match hs : sortByKeyDesc ps2 with
    | [] => rw [hs] at hlen; simp at hlen
    | [a] => rw [hs] at hlen; simp at hlen
    | a :: b :: r => exact ⟨a, b, r, rfl⟩
  rw [hlast, hsort] at hp2
  simp only [pickGreen, Option.some.injEq] at hp2
  have hnd : ((sortByKeyDesc ps2).map (fun b => b.lane)).Nodup :=
    (((sortByKeyDesc_perm ps2).map (fun b => b.lane)).nodup_iff).mpr hnodup
  rw [hsort] at hnd
  simp only [List.map_cons, List.nodup_cons, List.mem_cons] at hnd
  have hts : top.lane ≠ second.lane := fun hts =>
    hnd.1 (Or.inl hts)
  have hne1 : c1.lane ≠ "" := fun hc => hne (hg1.trans hc)
  by_cases hc : top.lane = c1.lane
  · rw [if_pos ⟨hne1, hc⟩] at hp2
    rw [← hp2, ← hc]
    exact fun hss => hts hss.symm
  · rw [if_neg (fun hand => hc hand.2)] at hp2
    rw [← hp2]
    exact hc

/-- C1 witness: with lanes `main` and `side` where `main` outranks `side`
in both calls, the second call demotes to `side`. -/
theorem scheduler_alternation_witness :
    ∃ d1 st1 d2 st2,
      next_cycle ⟨20, 10, 60, 20⟩ ⟨0, none⟩
        [⟨"main", 3, 0, 0, 0, 0, 9⟩, ⟨"side", 1, 0, 0, 0, 0, 2⟩] 0 =
        some (d1, st1) ∧
      next_cycle ⟨20, 10, 60, 20⟩ st1
        [⟨"main", 3, 0, 0, 0, 0, 9⟩, ⟨"side", 1, 0, 0, 0, 0, 2⟩] 30 =
        some (d2, st2) ∧
      d2.green_lane ≠ d1.green_lane ∧
      st2.last_green_lane = some d2.green_lane := by
  obtain ⟨⟨d1, st1⟩, h1⟩ :
      ∃ p, next_cycle ⟨20, 10, 60, 20⟩ ⟨0, none⟩
        [⟨"main", 3, 0, 0, 0, 0, 9⟩, ⟨"side", 1, 0, 0, 0, 0, 2⟩] 0 =
        some p := ⟨_, rfl⟩
  have hg1 : (next_cycle ⟨20, 10, 60, 20⟩ ⟨0, none⟩
      [⟨"main", 3, 0, 0, 0, 0, 9⟩, ⟨"side", 1, 0, 0, 0, 0, 2⟩] 0).map
        (fun p => p.1.green_lane) = some "main" := rfl
  have hs1 : (next_cycle ⟨20, 10, 60, 20⟩ ⟨0, none⟩
      [⟨"main", 3, 0, 0, 0, 0, 9⟩, ⟨"side", 1, 0, 0, 0, 0, 2⟩] 0).map
        (fun p => p.2) = some ⟨1, some "main"⟩ := rfl
  rw [h1] at hg1 hs1
  simp only [Option.map_some', Option.some.injEq] at hg1 hs1
  subst hs1
  obtain ⟨⟨d2, st2⟩, h2⟩ :
      ∃ p, next_cycle ⟨20, 10, 60, 20⟩ ⟨1, some "main"⟩
        [⟨"main", 3, 0, 0, 0, 0, 9⟩, ⟨"side", 1, 0, 0, 0, 0, 2⟩] 30 =
        some p := ⟨_, rfl⟩
  have h := scheduler_alternation ⟨20, 10, 60, 20⟩ ⟨0, none⟩
    _ _ 0 30 d1 d2 ⟨1, some "main"⟩ st2 h1 h2
    (by decide) (by decide) (by decide)
    (by rw [hg1]; decide)
  exact ⟨d1, ⟨1, some "main"⟩, d2, st2, h1, h2, h.1, h.2⟩

/-- Two consecutive `next_cycle` calls on the same two-lane priorities,
where the empty-string lane outranks the other both times. -/
def emptyLaneRun : Option (String × String) :=
  match next_cycle ⟨20, 10, 60, 20⟩ ⟨0, none⟩
    [⟨"", 5, 0, 0, 0, 0, 10⟩, ⟨"side", 1, 0, 0, 0, 0, 1⟩] 0 with
  | none => none
  | some (d1, st1) =>
      match next_cycle ⟨20, 10, 60, 20⟩ st1
        [⟨"", 5, 0, 0, 0, 0, 10⟩, ⟨"side", 1, 0, 0, 0, 0, 1⟩] 30 with
      | none => none
      | some (d2, _) => some (d1.green_lane, d2.green_lane)

/-- C1 counterexample: with two lanes present in both calls, a top-ranked
lane whose id is the empty string is chosen twice in a row — Python
truthiness of `_last_green_lane` skips the anti-starvation demotion. -/
theorem scheduler_alternation_cex :
    emptyLaneRun = some ("", "") ∧
    ([⟨"", 5, 0, 0, 0, 0, 10⟩,
      ⟨"side", 1, 0, 0, 0, 0, 1⟩] : List PriorityBreakdown).length = 2 :=
  ⟨rfl, rfl⟩

/-- One step of the lane-registration loops in `StateStore.__init__` and
`StateStore.ensure_lanes`: skip `None`, skip already-tracked lanes,
append new ones at the end. -/
def laneStep (acc : List String) (o : Option String) : List String :=
  match o with
  | none => acc
  | some l => if l ∈ acc then acc else acc ++ [l]

/-- Register every lane of `ls` into `acc`, preserving first-seen order. -/
def dedupAppend (acc : List String) (ls : List (Option String)) : List String :=
  ls.foldl laneStep acc

/-- The state owned by `StateStore` in `core/state_store.py`; the
defaultdicts are modelled as total functions defaulting to 0. -/
structure StateStore where
  lanes : List String
  cooldown_duration : ℚ
  current_green : Option String
  current_green_started_at : Option ℚ
  waiting : String → ℚ
  cooldowns : String → ℚ

/-- `StateStore.__init__`: register the given lanes, clamp the cooldown
duration at 0, then `reset()` (all timing values zero, no green lane). -/
def mkStore (lanes : List (Option String)) (cd : ℚ) : StateStore :=
  { lanes := dedupAppend [] lanes
    cooldown_duration := max cd 0
    current_green := none
    current_green_started_at := none
    waiting := fun _ => 0
    cooldowns := fun _ => 0 }

/-- `StateStore.ensure_lanes`: register unseen lanes; the dictionary
touch-up in the source only materialises default (zero) entries, which
the total-function model already represents. -/
def ensure_lanes (s : StateStore) (ls : List (Option String)) : StateStore :=
  { s with lanes := dedupAppend s.lanes ls }

/-- `StateStore.tick`: no-op for `delta <= 0`; otherwise advance waiting
times of non-green tracked lanes, pin the green lane's wait at 0, and
decay positive cooldowns towards 0. -/
def tick (s : StateStore) (delta : ℚ) : StateStore :=
  if delta ≤ 0 then s
  else
    { s with
      waiting := fun l =>
        if l ∈ s.lanes then
          if s.current_green = some l then 0 else s.waiting l + delta
        else s.waiting l
      cooldowns := fun l =>
        if l ∈ s.lanes then
          if 0 < s.cooldowns l then max 0 (s.cooldowns l - delta)
          else s.cooldowns l
        else s.cooldowns l }

/-- `StateStore.mark_green`: `none` models the `ValueError` on an
untracked lane; otherwise set the green lane and its start time, zero its
wait, and start its cooldown. -/
def mark_green (s : StateStore) (lane : String) (t : ℚ) : Option StateStore :=
  if lane ∈ s.lanes then
    some { s with
      current_green := some lane
      current_green_started_at := some t
      waiting := fun l => if l = lane then 0 else s.waiting l
      cooldowns := fun l => if l = lane then s.cooldown_duration else s.cooldowns l }
  else none

/-- `StateStore.reset`: clear the green lane and zero every tracked
lane's timing values; the lane set is untouched. -/
def reset (s : StateStore) : StateStore :=
  { s with
    current_green := none
    current_green_started_at := none
    waiting := fun l => if l ∈ s.lanes then 0 else s.waiting l
    cooldowns := fun l => if l ∈ s.lanes then 0 else s.cooldowns l }

theorem laneStep_extends (acc : List String) (o : Option String) :
    acc <+: laneStep acc o := by
  match o with
  | none => exact List.prefix_refl acc
  | some l =>
      simp only [laneStep]
      by_cases hl : l ∈ acc
      · rw [if_pos hl]
      · rw [if_neg hl]
        exact ⟨[l], rfl⟩

theorem dedupAppend_extends :
    ∀ (ls : List (Option String)) (acc : List String),
      acc <+: dedupAppend acc ls := by
  intro ls
  induction ls with
  | nil => exact fun acc => List.prefix_refl acc
  | cons o ls ih =>
      intro acc
      exact (laneStep_extends acc o).trans (ih (laneStep acc o))

theorem laneStep_nodup {acc : List String} (o : Option String)
    (h : acc.Nodup) : (laneStep acc o).Nodup := by
  match o with
  | none => exact h
  | some l =>
      simp only [laneStep]
      by_cases hl : l ∈ acc
      · rw [if_pos hl]
        exact h
      · rw [if_neg hl]
        simp [List.nodup_append, h, hl]

theorem dedupAppend_nodup :
    ∀ (ls : List (Option String)) (acc : List String),
      acc.Nodup → (dedupAppend acc ls).Nodup := by
  intro ls
  induction ls with
  | nil => exact fun _ h => h
  | cons o ls ih =>
      intro acc h
      exact ih (laneStep acc o) (laneStep_nodup o h)

theorem laneStep_mem {acc : List String} {x : String} (o : Option String)
    (h : x ∈ acc) : x ∈ laneStep acc o := by
  exact (laneStep_extends acc o).subset h

theorem dedupAppend_mem_of :
    ∀ (ls : List (Option String)) (acc : List String) (l : String),
      some l ∈ ls → l ∈ dedupAppend acc ls := by
  intro ls
  induction ls with
  | nil => intro acc l h; simp at h
  | cons o ls ih =>
      intro acc l h
      rcases List.mem_cons.mp h with heq | htl
      · have hstep : l ∈ laneStep acc o := by
          rw [← heq]
          simp only [laneStep]
          by_cases hl : l ∈ acc
          · rw [if_pos hl]; exact hl
          · rw [if_neg hl]; simp
        exact (dedupAppend_extends ls (laneStep acc o)).subset hstep
      · exact ih (laneStep acc o) l htl

theorem laneStep_mem_inv {acc : List String} {x : String}
    {o : Option String} (h : x ∈ laneStep acc o) :
    x ∈ acc ∨ o = some x := by
  match o with
  | none => exact Or.inl h
  | some l =>
      simp only [laneStep] at h
      by_cases hl : l ∈ acc
      · rw [if_pos hl] at h
        exact Or.inl h
      · rw [if_neg hl] at h
        rcases List.mem_append.mp h with h2 | h2
        · exact Or.inl h2
        · simp at h2
          exact Or.inr (by rw [h2])

theorem dedupAppend_mem_inv :
    ∀ (ls : List (Option String)) (acc : List String) (l : String),
      l ∈ dedupAppend acc ls → l ∈ acc ∨ some l ∈ ls := by
  intro ls
  induction ls with
  | nil => intro acc l h; exact Or.inl h
  | cons o ls ih =>
      intro acc l h
      rcases ih (laneStep acc o) l h with h2 | h2
      · rcases laneStep_mem_inv h2 with h3 | h3
        · exact Or.inl h3
        · exact Or.inr (List.mem_cons.mpr (Or.inl h3.symm))
      · exact Or.inr (List.mem_cons.mpr (Or.inr h2))

theorem dedupAppend_eq_self :
    ∀ (ls : List (Option String)) (acc : List String),
      (∀ l, some l ∈ ls → l ∈ acc) → dedupAppend acc ls = acc := by
  intro ls
  induction ls with
  | nil => intro acc _; rfl
  | cons o ls ih =>
      intro acc h
      have hstep : laneStep acc o = acc := by
        match o with
        | none => rfl
        | some l =>
            simp only [laneStep]
            exact if_pos (h l (List.mem_cons.mpr (Or.inl rfl)))
      show dedupAppend (laneStep acc o) ls = acc
      rw [hstep]
      exact ih acc fun l hl => h l (List.mem_cons.mpr (Or.inr hl))

/-- C7: `StateStore.tick` is the identity for `delta_seconds <= 0`; for
positive deltas every tracked non-green lane's waiting time grows by the
delta, the green lane's waiting time is forced to 0, and every tracked
lane's cooldown becomes `max 0 (cooldown - delta)` (given the invariant
that cooldowns are non-negative, which all reachable states satisfy), so
cooldowns never increase and never go negative. -/
theorem state_store_tick_spec (s : StateStore) (delta : ℚ)
    (hcd : ∀ l, 0 ≤ s.cooldowns l) :
    (delta ≤ 0 → tick s delta = s) ∧
    (0 < delta →
      (∀ l ∈ s.lanes, ¬ s.current_green = some l →
        (tick s delta).waiting l = s.waiting l + delta) ∧
      (∀ l ∈ s.lanes, s.current_green = some l → (tick s delta).waiting l = 0) ∧
      (∀ l ∈ s.lanes, (tick s delta).cooldowns l = max 0 (s.cooldowns l - delta)) ∧
      (∀ l, (tick s delta).cooldowns l ≤ s.cooldowns l ∧
        0 ≤ (tick s delta).cooldowns l)) ∧
    (tick s delta).current_green = s.current_green ∧
    (tick s delta).current_green_started_at = s.current_green_started_at ∧
    (tick s delta).lanes = s.lanes := by
  by_cases hneg : delta ≤ 0
  · unfold tick
    rw [if_pos hneg]
    exact ⟨fun _ => rfl, fun hpos => absurd hneg (not_le.mpr hpos), rfl, rfl, rfl⟩
  · have hpos : 0 < delta := lt_of_not_le hneg
    unfold tick
    rw [if_neg hneg]
    refine ⟨fun hle => absurd hle hneg, fun _ => ⟨?_, ?_, ?_, ?_⟩, rfl, rfl, rfl⟩
    · intro l hl hng
      show (if l ∈ s.lanes then
        if s.current_green = some l then 0 else s.waiting l + delta
        else s.waiting l) = s.waiting l + delta
      rw [if_pos hl, if_neg hng]
    · intro l hl hg
      show (if l ∈ s.lanes then
        if s.current_green = some l then 0 else s.waiting l + delta
        else s.waiting l) = 0
      rw [if_pos hl, if_pos hg]
    · intro l hl
      show (if l ∈ s.lanes then
        if 0 < s.cooldowns l then max 0 (s.cooldowns l - delta)
        else s.cooldowns l else s.cooldowns l) = max 0 (s.cooldowns l - delta)
      rw [if_pos hl]
      by_cases hc : 0 < s.cooldowns l
      · rw [if_pos hc]
      · rw [if_neg hc]
        have hzero : s.cooldowns l = 0 := le_antisymm (not_lt.mp hc) (hcd l)
        rw [hzero]
        rw [max_eq_left (by linarith)]
    · intro l
      show (if l ∈ s.lanes then
        if 0 < s.cooldowns l then max 0 (s.cooldowns l - delta)
        else s.cooldowns l else s.cooldowns l) ≤ s.cooldowns l ∧
        0 ≤ (if l ∈ s.lanes then
        if 0 < s.cooldowns l then max 0 (s.cooldowns l - delta)
        else s.cooldowns l else s.cooldowns l)
      by_cases hl : l ∈ s.lanes
      · rw [if_pos hl]
        by_cases hc : 0 < s.cooldowns l
        · rw [if_pos hc]
          constructor
          · exact max_le (hcd l) (by linarith)
          · exact le_max_left 0 _
        · rw [if_neg hc]
          exact ⟨le_refl _, hcd l⟩
      · rw [if_neg hl]
        exact ⟨le_refl _, hcd l⟩

/-- C7 witness: a concrete two-lane store where the negative-delta call is
a no-op and a positive-delta call keeps the cooldown non-increasing. -/
theorem state_store_tick_spec_witness :
    tick (mkStore [some "north", some "west"] 5) (-1) =
      mkStore [some "north", some "west"] 5 ∧
    (tick (mkStore [some "north", some "west"] 5) 3).cooldowns "north" ≤
      (mkStore [some "north", some "west"] 5).cooldowns "north" := by
  have hneg := state_store_tick_spec (mkStore [some "north", some "west"] 5)
    (-1) (fun _ => le_refl 0)
  have hpos := state_store_tick_spec (mkStore [some "north", some "west"] 5)
    3 (fun _ => le_refl 0)
  exact ⟨hneg.1 (by norm_num),
    ((hpos.2.1 (by norm_num)).2.2.2 "north").1⟩

/-- C9: across the `StateStore` operations the tracked-lane set only
grows: the constructor and `ensure_lanes` register lanes without ever
creating duplicates (and drop `None` entries, so `lanes()` — a `List
String` here precisely because the source filters `None` on entry — has
no `None`); `ensure_lanes` is idempotent on already-tracked lanes, keeps
the existing list as a prefix, adds exactly the given lanes, and leaves
the (zero-valued) timing entries of a newly added lane at 0; `tick`,
`mark_green` and `reset` never change the lane set; `reset` clears the
green lane and zeroes every tracked lane's waiting time and cooldown. -/
theorem state_store_lane_set_invariants
    (ls0 ls : List (Option String)) (cd delta t : ℚ)
    (s s2 : StateStore) (lane : String) :
    (mkStore ls0 cd).lanes.Nodup ∧
    (s.lanes.Nodup → (ensure_lanes s ls).lanes.Nodup) ∧
    s.lanes <+: (ensure_lanes s ls).lanes ∧
    (∀ l, some l ∈ ls → l ∈ (ensure_lanes s ls).lanes) ∧
    (∀ l, l ∈ (ensure_lanes s ls).lanes → l ∈ s.lanes ∨ some l ∈ ls) ∧
    ((∀ l, some l ∈ ls → l ∈ s.lanes) → ensure_lanes s ls = s) ∧
    ((∀ l, l ∉ s.lanes → s.waiting l = 0 ∧ s.cooldowns l = 0) →
      ∀ l, l ∈ (ensure_lanes s ls).lanes → l ∉ s.lanes →
        (ensure_lanes s ls).waiting l = 0 ∧ (ensure_lanes s ls).cooldowns l = 0) ∧
    (tick s delta).lanes = s.lanes ∧
    (mark_green s lane t = some s2 → s2.lanes = s.lanes) ∧
    (reset s).lanes = s.lanes ∧
    (reset s).current_green = none ∧
    (reset s).current_green_started_at = none ∧
    (∀ l ∈ s.lanes, (reset s).waiting l = 0 ∧ (reset s).cooldowns l = 0) := by
  refine ⟨?_, ?_, ?_, ?_, ?_, ?_, ?_, ?_, ?_, rfl, rfl, rfl, ?_⟩
  · exact dedupAppend_nodup ls0 [] List.nodup_nil
  · exact fun h => dedupAppend_nodup ls s.lanes h
  · exact dedupAppend_extends ls s.lanes
  · exact fun l hl => dedupAppend_mem_of ls s.lanes l hl
  · exact fun l hl => dedupAppend_mem_inv ls s.lanes l hl
  · intro h
    show { s with lanes := dedupAppend s.lanes ls } = s
    rw [dedupAppend_eq_self ls s.lanes h]
  · intro h l _ hnew
    exact h l hnew
  · unfold tick
    by_cases hneg : delta ≤ 0
    · rw [if_pos hneg]
    · rw [if_neg hneg]
  · intro hmk
    unfold mark_green at hmk
    by_cases hl : lane ∈ s.lanes
    · rw [if_pos hl] at hmk
      simp only [Option.some.injEq] at hmk
      rw [← hmk]
    · rw [if_neg hl] at hmk
      exact absurd hmk (by simp)
  · intro l hl
    constructor
    · show (if l ∈ s.lanes then 0 else s.waiting l) = 0
      rw [if_pos hl]
    · show (if l ∈ s.lanes then 0 else s.cooldowns l) = 0
      rw [if_pos hl]

/-- C9 witness: concrete registration, idempotence, and reset facts
extracted through the invariants theorem. -/
theorem state_store_lane_set_invariants_witness :
    (ensure_lanes (mkStore [some "n"] 5) [some "w", none, some "n"]).lanes.Nodup ∧
    ensure_lanes (mkStore [some "n"] 5) [some "n"] = mkStore [some "n"] 5 ∧
    (ensure_lanes (mkStore [some "n"] 5) [some "w"]).waiting "w" = 0 ∧
    (reset (mkStore [some "n"] 5)).waiting "n" = 0 := by
  have h1 := state_store_lane_set_invariants [some "n"] [some "w", none, some "n"]
    5 0 0 (mkStore [some "n"] 5) (mkStore [some "n"] 5) "n"
  have h2 := state_store_lane_set_invariants [some "n"] [some "n"]
    5 0 0 (mkStore [some "n"] 5) (mkStore [some "n"] 5) "n"
  have h3 := state_store_lane_set_invariants [some "n"] [some "w"]
    5 0 0 (mkStore [some "n"] 5) (mkStore [some "n"] 5) "n"
  refine ⟨h1.2.1 (by decide), ?_, ?_, ?_⟩
  · refine h2.2.2.2.2.2.1 ?_
    intro l hl
    simp only [List.mem_singleton, Option.some.injEq] at hl
    rw [hl]
    decide
  · refine (h3.2.2.2.2.2.2.1 (fun l _ => ⟨rfl, rfl⟩) "w" ?_ ?_).1
    · decide
    · decide
  · exact (h3.2.2.2.2.2.2.2.2.2.2.2.2 "n" (by decide)).1

/-- One telemetry observation: the fields of `LaneSnapshot`
(`core/models.py`) that the controller reads. -/
structure LaneSnapshot where
  timestamp : ℚ
  lane_counts : List (String × ℤ)
  totals : List (String × ℤ)
  deriving DecidableEq, Repr

/-- Python `dict.get(key)` over an association list with unique keys. -/
def lookupZ (m : List (String × ℤ)) (k : String) : Option ℤ :=
  (m.find? (fun p => p.1 == k)).map (fun p => p.2)

/-- The raised-error classes that can escape `SignalService.step`:
`RuntimeError` for missing or stale telemetry, and the defensive
`ValueError`s of the scheduler and the timing store. -/
inductive StepError
  | noTelemetry
  | stale
  | emptyPriorities
  | unknownLane
  deriving DecidableEq, Repr

/-- The persisted status document built by `SignalService.snapshot`
(dict-valued entries modelled as default-0 functions). -/
structure StatusSnapshot where
  current_green : Option String
  remaining_seconds : ℚ
  cycle_id : Option ℕ
  cycle_started_at : Option ℚ
  last_updated : ℚ
  lane_counts : List (String × ℤ)
  lane_totals : String → ℤ
  lane_wait_times : String → ℚ
  lane_gaps : String → ℚ
  lane_forecasts : String → ℚ
  directions : List String
  mode : String

/-- `StateStore.waiting_times()`: a dict whose keys are exactly the
tracked lanes, read back with default 0. -/
def waitingTimes (s : StateStore) : String → ℚ :=
  fun l => if l ∈ s.lanes then s.waiting l else 0

/-- `StateStore.cooldowns()`: same shape as `waitingTimes`. -/
def cooldownTimes (s : StateStore) : String → ℚ :=
  fun l => if l ∈ s.lanes then s.cooldowns l else 0

/-- The full state of `SignalService` (`services/signal_service.py`),
with the ingestor modelled by the snapshot list its `load_recent`
returns and the persistence sink by the two `persisted_*` fields. -/
structure SignalService where
  snapshots : List LaneSnapshot
  telemetry_stale_after : ℚ
  forecast_horizon : ℚ
  forecast_smoothing : ℚ
  engine : EngineConfig
  schedCfg : SchedulerConfig
  sched : SchedulerState
  store : StateStore
  history : List CycleDecision
  last_tick_at : Option ℚ
  active_decision : Option CycleDecision
  last_priorities : List PriorityBreakdown
  last_snapshot : Option LaneSnapshot
  lane_totals : String → ℤ
  lane_last_activity : String → Option ℚ
  lane_gaps : String → ℚ
  lane_total_timestamp : String → Option ℚ
  lane_arrival_rate : String → Option ℚ
  lane_forecast : String → Option ℚ
  stale_incidents : ℕ
  persisted_history : List CycleDecision
  persisted_state : Option StatusSnapshot

/-- `SignalService._apply_tick`: the first call only seeds the baseline;
later calls tick the store by the positive elapsed time. -/
def applyTick (svc : SignalService) (now : ℚ) : SignalService :=
  match svc.last_tick_at with
  | none => { svc with last_tick_at := some now }
  | some prev =>
      { svc with
        store := if 0 < now - prev then tick svc.store (now - prev) else svc.store
        last_tick_at := some now }

/-- The lane set iterated by `SignalService._update_lane_activity`:
tracked lanes plus every lane named in the snapshot's counts or totals. -/
def activityLanes (svc : SignalService) (snap : LaneSnapshot) (l : String) : Bool :=
  svc.store.lanes.contains l || (snap.lane_counts.map Prod.fst).contains l ||
    (snap.totals.map Prod.fst).contains l

/-- The per-lane values written by one pass of
`SignalService._update_lane_activity`. -/
structure LaneActivity where
  total : ℤ
  last_activity : Option ℚ
  gap : ℚ
  total_timestamp : Option ℚ
  rate : Option ℚ
  forecast : Option ℚ

/-- The body of the per-lane loop in `_update_lane_activity`: totals,
activity timestamps, quiet-gaps and the blended forecast rate. -/
def laneActivityUpdate (svc : SignalService) (snap : LaneSnapshot)
    (l : String) : LaneActivity :=
  let previous_total := svc.lane_totals l
  let current_total := max ((lookupZ snap.totals l).getD previous_total) 0
  let previous_timestamp := (svc.lane_total_timestamp l).getD snap.timestamp
  let delta_seconds := max (snap.timestamp - previous_timestamp) 0
  let delta_total := max (current_total - previous_total) 0
  let last_activity0 := (svc.lane_last_activity l).getD snap.timestamp
  let act : ℚ × ℚ :=
    if current_total < previous_total then (snap.timestamp, 0)
    else if previous_total < current_total then (snap.timestamp, 0)
    else (last_activity0, max 0 (snap.timestamp - last_activity0))
  let rateForecast : Option ℚ × Option ℚ :=
    if 0 < svc.forecast_horizon ∧ 0 < delta_seconds then
      let observed : ℚ := (delta_total : ℚ) / delta_seconds
      let prior := (svc.lane_arrival_rate l).getD observed
      let blended := svc.forecast_smoothing * observed
        + (1 - svc.forecast_smoothing) * prior
      (some blended, some (blended * svc.forecast_horizon))
    else if svc.lane_forecast l = none then (svc.lane_arrival_rate l, some 0)
    else (svc.lane_arrival_rate l, svc.lane_forecast l)
  { total := current_total
    last_activity := some act.1
    gap := act.2
    total_timestamp := some snap.timestamp
    rate := rateForecast.1
    forecast := rateForecast.2 }

/-- `SignalService._update_lane_activity`: apply the per-lane update to
every lane in the activity set (the per-lane writes are independent, so
the set's iteration order is irrelevant). -/
def updateLaneActivity (svc : SignalService) (snap : LaneSnapshot) :
    SignalService :=
  { svc with
    lane_totals := fun l => if activityLanes svc snap l
      then (laneActivityUpdate svc snap l).total else svc.lane_totals l
    lane_last_activity := fun l => if activityLanes svc snap l
      then (laneActivityUpdate svc snap l).last_activity else svc.lane_last_activity l
    lane_gaps := fun l => if activityLanes svc snap l
      then (laneActivityUpdate svc snap l).gap else svc.lane_gaps l
    lane_total_timestamp := fun l => if activityLanes svc snap l
      then (laneActivityUpdate svc snap l).total_timestamp else svc.lane_total_timestamp l
    lane_arrival_rate := fun l => if activityLanes svc snap l
      then (laneActivityUpdate svc snap l).rate else svc.lane_arrival_rate l
    lane_forecast := fun l => if activityLanes svc snap l
      then (laneActivityUpdate svc snap l).forecast else svc.lane_forecast l }

/-- `SignalService._latest_snapshot`: raise `noTelemetry` on an empty
window; otherwise remember the newest snapshot, grow the tracked-lane
set from its counts, and update per-lane activity state — all before any
freshness check. -/
def latestSnapshot (svc : SignalService) :
    Except StepError (LaneSnapshot × SignalService) :=
  match svc.snapshots.getLast? with
  | none => Except.error StepError.noTelemetry
  | some snap =>
      let svc1 := { svc with last_snapshot := some snap }
      let svc2 := { svc1 with
        store := ensure_lanes svc1.store (snap.lane_counts.map (fun p => some p.1)) }
      Except.ok (snap, updateLaneActivity svc2 snap)

/-- The condition under which `_assert_snapshot_fresh` raises: a positive
threshold (0 disables the check) exceeded by the snapshot's age. -/
def snapshotStale (svc : SignalService) (snap : LaneSnapshot) (now : ℚ) : Prop :=
  0 < svc.telemetry_stale_after ∧
    svc.telemetry_stale_after < now - snap.timestamp

instance (svc : SignalService) (snap : LaneSnapshot) (now : ℚ) :
    Decidable (snapshotStale svc snap now) := by
  unfold snapshotStale
  infer_instance

/-- `SignalService._resolve_mode`. -/
def resolveMode (svc : SignalService) : String :=
  if svc.store.lanes.length ≤ 1 then "single_flow"
  else if svc.store.lanes.length = 2 then "opposite_road"
  else "crossroad"

/-- The dict literal built by `SignalService.snapshot` for persistence. -/
def mkStatus (svc : SignalService) (now : ℚ) : StatusSnapshot :=
  { current_green := svc.active_decision.map (fun d => d.green_lane)
    remaining_seconds := match svc.active_decision with
      | some d => max 0 (d.effective_until - now)
      | none => 0
    cycle_id := svc.active_decision.map (fun d => d.cycle_id)
    cycle_started_at := svc.store.current_green_started_at
    last_updated := now
    lane_counts := match svc.last_snapshot with
      | some snap => snap.lane_counts
      | none => []
    lane_totals := svc.lane_totals
    lane_wait_times := waitingTimes svc.store
    lane_gaps := svc.lane_gaps
    lane_forecasts := fun l => (svc.lane_forecast l).getD 0
    directions := svc.store.lanes
    mode := resolveMode svc }

/-- `SignalService.snapshot(now, hydrate)`: when no snapshot was ever
seen and hydration is requested, try `_latest_snapshot` first (swallowing
its `RuntimeError`), then build the status document. -/
def statusSnapshot (svc : SignalService) (now : ℚ) (hydrate : Bool) :
    SignalService × StatusSnapshot :=
  let svc1 :=
    if svc.last_snapshot = none ∧ hydrate = true then
      match latestSnapshot svc with
      | Except.ok (_, s) => s
      | Except.error _ => svc
    else svc
  (svc1, mkStatus svc1 now)

/-- The `priorities` dict of `evaluate_cycle`, keyed by lane: Python dict
insertion semantics (an existing key is overwritten in place, a new key
appends), read back in insertion order by `.values()`. -/
def dictInsert (acc : List PriorityBreakdown) (b : PriorityBreakdown) :
    List PriorityBreakdown :=
  if (acc.map (fun x => x.lane)).contains b.lane then
    acc.map (fun x => if x.lane = b.lane then b else x)
  else acc ++ [b]

/-- Values of `{item.lane: item for item in breakdowns}` in order. -/
def dictValues (l : List PriorityBreakdown) : List PriorityBreakdown :=
  l.foldl dictInsert []

/-- The `score_lanes` call made by `evaluate_cycle`, with the dict
accessors the source passes. -/
def evalBreakdowns (svc1 : SignalService) (snap : LaneSnapshot) :
    List PriorityBreakdown :=
  score_lanes svc1.engine svc1.store.lanes
    (fun l => (lookupZ snap.lane_counts l).getD 0)
    (waitingTimes svc1.store) (cooldownTimes svc1.store)
    svc1.lane_gaps (fun l => (svc1.lane_forecast l).getD 0)

/-- The in-memory bookkeeping of a fresh decision inside
`evaluate_cycle`: scheduler and store updates, active decision, last
priorities, and the in-memory and persisted history appends. -/
def recordDecision (svc1 : SignalService) (sched2 : SchedulerState)
    (store2 : StateStore) (d : CycleDecision)
    (breakdowns : List PriorityBreakdown) : SignalService :=
  { svc1 with
    sched := sched2
    store := store2
    active_decision := some d
    last_priorities := breakdowns
    history := svc1.history ++ [d]
    persisted_history := svc1.persisted_history ++ [d] }

/-- `SignalService.evaluate_cycle`: optional tick, snapshot fetch (which
grows lanes and updates activity), freshness check (incrementing the
stale counter on failure), scoring, scheduling, marking green, and
recording plus persisting the decision and a status snapshot. -/
def evaluate_cycle (svc0 : SignalService) (now : ℚ) (applyTickFlag : Bool) :
    SignalService × Except StepError CycleDecision :=
  match latestSnapshot (if applyTickFlag then applyTick svc0 now else svc0) with
  | Except.error e =>
      ((if applyTickFlag then applyTick svc0 now else svc0), Except.error e)
  | Except.ok (snap, svc1) =>
      if snapshotStale svc1 snap now then
        ({ svc1 with stale_incidents := svc1.stale_incidents + 1 },
         Except.error StepError.stale)
      else
        match next_cycle svc1.schedCfg svc1.sched
          (dictValues (evalBreakdowns svc1 snap)) now with
        | none => (svc1, Except.error StepError.emptyPriorities)
        | some (d, sched2) =>
            match mark_green svc1.store d.green_lane now with
            | none => ({ svc1 with sched := sched2 },
                Except.error StepError.unknownLane)
            | some store2 =>
                ({ (statusSnapshot (recordDecision svc1 sched2 store2 d
                      (evalBreakdowns svc1 snap)) now true).1 with
                    persisted_state := some (statusSnapshot
                      (recordDecision svc1 sched2 store2 d
                        (evalBreakdowns svc1 snap)) now true).2 },
                 Except.ok d)

/-- `SignalService.step`: tick, then either the cheap refresh path while
a decision is still in effect, or a full evaluation; a raised error is
the `Except.error` branch — `step` itself catches nothing. -/
def step (svc0 : SignalService) (now : ℚ) :
    SignalService × Except StepError (Option CycleDecision) :=
  match (applyTick svc0 now).active_decision with
  | some d =>
      if now < d.effective_until then
        ({ (statusSnapshot (applyTick svc0 now) now true).1 with
            persisted_state := some (statusSnapshot (applyTick svc0 now) now true).2 },
         Except.ok none)
      else
        ((evaluate_cycle (applyTick svc0 now) now false).1,
         (evaluate_cycle (applyTick svc0 now) now false).2.map (fun d2 => some d2))
  | none =>
      ((evaluate_cycle (applyTick svc0 now) now false).1,
       (evaluate_cycle (applyTick svc0 now) now false).2.map (fun d2 => some d2))

/-- Python `items[start:]` for an integer `start`. -/
def pySliceFrom {α : Type} (items : List α) (s : ℤ) : List α :=
  if s < 0 then items.drop (((items.length : ℤ) + s).toNat)
  else items.drop s.toNat

/-- `SignalService.history(limit)`: the whole list without a limit,
otherwise `items[-limit:]`. -/
def history (svc : SignalService) (limit : Option ℤ) : List CycleDecision :=
  match limit with
  | none => svc.history
  | some n => pySliceFrom svc.history (-n)

/-- C10: `SignalService.history` with a positive limit `n` returns the
last `min n len` decisions in order, as a suffix of the full history;
with no limit it returns the whole history; and `history(0)` also
returns the whole history because `items[-0:]` selects everything. -/
theorem history_slice_spec (svc : SignalService) (n : ℤ) (hn : 0 < n) :
    history svc (some n) = svc.history.drop (svc.history.length - n.toNat) ∧
    (history svc (some n)).length = min n.toNat svc.history.length ∧
    history svc (some n) <:+ svc.history ∧
    history svc none = svc.history ∧
    history svc (some 0) = svc.history := by
  have hdrop : history svc (some n) =
      svc.history.drop (svc.history.length - n.toNat) := by
    show pySliceFrom svc.history (-n) = _
    unfold pySliceFrom
    rw [if_pos (by omega : -n < 0)]
    congr 1
    omega
  refine ⟨hdrop, ?_, ?_, rfl, ?_⟩
  · rw [hdrop, List.length_drop]
    omega
  · rw [hdrop]
    exact List.drop_suffix _ _
  · show pySliceFrom svc.history (-(0 : ℤ)) = svc.history
    unfold pySliceFrom
    rw [if_neg (by omega)]
    simp

/-- A baseline controller state: fresh stores, no telemetry, no history. -/
def emptyService : SignalService where
  snapshots := []
  telemetry_stale_after := 0
  forecast_horizon := 0
  forecast_smoothing := 1/2
  engine := ⟨3/5, 2/5, 1/5, 3/10, 0⟩
  schedCfg := ⟨20, 10, 60, 20⟩
  sched := ⟨0, none⟩
  store := mkStore [] 10
  history := []
  last_tick_at := none
  active_decision := none
  last_priorities := []
  last_snapshot := none
  lane_totals := fun _ => 0
  lane_last_activity := fun _ => none
  lane_gaps := fun _ => 0
  lane_total_timestamp := fun _ => none
  lane_arrival_rate := fun _ => none
  lane_forecast := fun _ => none
  stale_incidents := 0
  persisted_history := []
  persisted_state := none

/-- A service whose in-memory history holds three decisions. -/
def histDemo : SignalService :=
  { emptyService with
    history := [⟨1, 0, "a", 10, [], 0, 10⟩, ⟨2, 10, "b", 10, [], 10, 20⟩,
      ⟨3, 20, "a", 10, [], 20, 30⟩] }

/-- C10 witness: limit 2 takes the last two decisions; limit 0 takes all. -/
theorem history_slice_spec_witness :
    (0 : ℤ) < 2 ∧
    history histDemo (some 2) =
      histDemo.history.drop (histDemo.history.length - (2 : ℤ).toNat) ∧
    history histDemo (some 0) = histDemo.history := by
  have h := history_slice_spec histDemo 2 (by norm_num)
  exact ⟨by norm_num, h.1, h.2.2.2.2⟩

theorem applyTick_fields (svc : SignalService) (now : ℚ) :
    (applyTick svc now).active_decision = svc.active_decision ∧
    (applyTick svc now).sched = svc.sched ∧
    (applyTick svc now).history = svc.history ∧
    (applyTick svc now).persisted_history = svc.persisted_history ∧
    (applyTick svc now).last_snapshot = svc.last_snapshot ∧
    (applyTick svc now).snapshots = svc.snapshots ∧
    (applyTick svc now).stale_incidents = svc.stale_incidents ∧
    (applyTick svc now).telemetry_stale_after = svc.telemetry_stale_after := by
  unfold applyTick
  cases svc.last_tick_at with
  | none => exact ⟨rfl, rfl, rfl, rfl, rfl, rfl, rfl, rfl⟩
  | some prev => exact ⟨rfl, rfl, rfl, rfl, rfl, rfl, rfl, rfl⟩

theorem statusSnapshot_of_seen (svc : SignalService) (now : ℚ)
    (h : svc.last_snapshot ≠ none) :
    statusSnapshot svc now true = (svc, mkStatus svc now) := by
  unfold statusSnapshot
  rw [if_neg (fun hc => h hc.1)]

/-- C5: while an active decision is still in effect (`now` strictly
before its `effective_until`), `step` returns the no-new-decision outcome
and only refreshes the persisted status snapshot: the active decision,
the scheduler state (hence its cycle counter), the in-memory decision
history, and the persisted decision log are all unchanged.  (The
`last_snapshot ≠ none` hypothesis holds in every state that carries an
active decision, since a decision is only created after a snapshot was
fetched.) -/
theorem step_active_fast_path (svc : SignalService) (now : ℚ)
    (d : CycleDecision)
    (hd : svc.active_decision = some d)
    (hlt : now < d.effective_until)
    (hsnap : svc.last_snapshot ≠ none) :
    (step svc now).2 = Except.ok none ∧
    (step svc now).1.active_decision = svc.active_decision ∧
    (step svc now).1.sched = svc.sched ∧
    (step svc now).1.history = svc.history ∧
    (step svc now).1.persisted_history = svc.persisted_history ∧
    (step svc now).1.persisted_state =
      some (mkStatus (applyTick svc now) now) := by
  have hfields := applyTick_fields svc now
  have hact : (applyTick svc now).active_decision = some d := hfields.1.trans hd
  have hsnap2 : (applyTick svc now).last_snapshot ≠ none := by
    rw [hfields.2.2.2.2.1]
    exact hsnap
  have hstat := statusSnapshot_of_seen (applyTick svc now) now hsnap2
  have hstep : step svc now =
      ({ applyTick svc now with
          persisted_state := some (mkStatus (applyTick svc now) now) },
       Except.ok none) := by
    unfold step
    split
    · rename_i d2 heq
      have hdd : some d = some d2 := hact.symm.trans heq
      injection hdd with hdd
      subst hdd
      rw [if_pos hlt, hstat]
    · rename_i heq
      rw [hact] at heq
      exact absurd heq (by simp)
  rw [hstep]
  exact ⟨rfl, hfields.1, hfields.2.1, hfields.2.2.1, hfields.2.2.2.1, rfl⟩

/-- A controller state holding an active decision for lane `n` valid on
`[0, 30)`. -/
def activeService : SignalService :=
  { emptyService with
    active_decision := some ⟨1, 0, "n", 30, [], 0, 30⟩
    last_snapshot := some ⟨0, [("n", 2)], [("n", 2)]⟩
    store := mkStore [some "n"] 10
    history := [⟨1, 0, "n", 30, [], 0, 30⟩]
    last_tick_at := some 0 }

/-- C5 witness: a `step` at time 5 against a decision valid until 30
returns no new decision and leaves scheduler state and history alone. -/
theorem step_active_fast_path_witness :
    (step activeService 5).2 = Except.ok none ∧
    (step activeService 5).1.sched = activeService.sched ∧
    (step activeService 5).1.history = activeService.history := by
  have h := step_active_fast_path activeService 5 ⟨1, 0, "n", 30, [], 0, 30⟩
    rfl (by norm_num) (fun hc => Option.noConfusion hc)
  exact ⟨h.1, h.2.2.1, h.2.2.2.1⟩

theorem latestSnapshot_error_eq {svc : SignalService} {e : StepError}
    (h : latestSnapshot svc = Except.error e) : e = StepError.noTelemetry := by
  unfold latestSnapshot at h
  cases hgl : svc.snapshots.getLast? with
  | none =>
      rw [hgl] at h
      simp only [Except.error.injEq] at h
      exact h.symm
  | some s =>
      rw [hgl] at h
      simp at h

theorem evaluate_stale_eq (svc : SignalService) (now : ℚ)
    (snap : LaneSnapshot) (svc1 : SignalService)
    (hsnap : latestSnapshot svc = Except.ok (snap, svc1))
    (hstale1 : snapshotStale svc1 snap now) :
    evaluate_cycle svc now false =
      ({ svc1 with stale_incidents := svc1.stale_incidents + 1 },
       Except.error StepError.stale) := by
  unfold evaluate_cycle
  split
  · rename_i e heq
    exact absurd (hsnap.symm.trans heq) (by simp)
  · rename_i snap2 svc2 heq
    have hpair := hsnap.symm.trans heq
    simp only [Except.ok.injEq, Prod.mk.injEq] at hpair
    obtain ⟨hsn, hsv⟩ := hpair
    subst hsn
    subst hsv
    rw [if_pos hstale1]

theorem latestSnapshot_ok_elim {svc : SignalService} {snap : LaneSnapshot}
    {svc1 : SignalService}
    (h : latestSnapshot svc = Except.ok (snap, svc1)) :
    svc.snapshots.getLast? = some snap ∧
    svc1.telemetry_stale_after = svc.telemetry_stale_after ∧
    svc1.history = svc.history ∧
    svc1.sched = svc.sched ∧
    svc1.active_decision = svc.active_decision ∧
    svc1.stale_incidents = svc.stale_incidents ∧
    svc1.persisted_history = svc.persisted_history := by
  unfold latestSnapshot at h
  cases hgl : svc.snapshots.getLast? with
  | none =>
      rw [hgl] at h
      simp at h
  | some s =>
      rw [hgl] at h
      simp only [Except.ok.injEq, Prod.mk.injEq] at h
      obtain ⟨hs, hsvc⟩ := h
      subst hs
      rw [← hsvc]
      exact ⟨rfl, rfl, rfl, rfl, rfl, rfl, rfl⟩

/-- C6 (amended): when an evaluation observes a telemetry snapshot whose
age `now − snapshot.timestamp` exceeds a positive staleness threshold,
the evaluation aborts after the snapshot fetch — which has already grown
the tracked-lane set and updated per-lane forecast and quiet-gap state —
but before any scoring or scheduling: the stale counter is incremented, a
distinct stale outcome is reported, no decision is produced, and the
decision history, scheduler state and active decision are unchanged; a
threshold of 0 (or less) disables the check entirely, so a stale outcome
is then impossible. -/
theorem stale_telemetry_abort
    (svc : SignalService) (now : ℚ) (snap : LaneSnapshot)
    (svc1 : SignalService)
    (hsnap : latestSnapshot svc = Except.ok (snap, svc1))
    (hthresh : 0 < svc.telemetry_stale_after)
    (hstale : svc.telemetry_stale_after < now - snap.timestamp) :
    evaluate_cycle svc now false =
      ({ svc1 with stale_incidents := svc1.stale_incidents + 1 },
       Except.error StepError.stale) ∧
    svc1.history = svc.history ∧
    svc1.sched = svc.sched ∧
    svc1.active_decision = svc.active_decision ∧
    svc1.stale_incidents = svc.stale_incidents ∧
    (∀ svcB nowB, svcB.telemetry_stale_after ≤ 0 →
      (evaluate_cycle svcB nowB false).2 ≠ Except.error StepError.stale) := by
  have hfacts := latestSnapshot_ok_elim hsnap
  have hstale1 : snapshotStale svc1 snap now := by
    unfold snapshotStale
    rw [hfacts.2.1]
    exact ⟨hthresh, hstale⟩
  refine ⟨evaluate_stale_eq svc now snap svc1 hsnap hstale1,
    hfacts.2.2.1, hfacts.2.2.2.1, hfacts.2.2.2.2.1,
    hfacts.2.2.2.2.2.1, ?_⟩
  intro svcB nowB hle
  unfold evaluate_cycle
  split
  · rename_i e heq
    rw [latestSnapshot_error_eq heq]
    simp
  · rename_i snap2 svc2 heq
    have hfactsB := latestSnapshot_ok_elim heq
    split
    · rename_i hstl
      have hth : (0 : ℚ) < svcB.telemetry_stale_after := by
        have h1 := hstl.1
        rw [hfactsB.2.1] at h1
        exact h1
      exact absurd hth (not_lt.mpr hle)
    · rename_i hnst
      split
      · simp
      · rename_i d sched2 hnc
        split
        · simp
        · simp

/-- A controller with a 5-second staleness threshold, an empty tracked
lane set, and one telemetry snapshot (timestamp 0) for a new lane `n`. -/
def staleService : SignalService :=
  { emptyService with
    telemetry_stale_after := 5
    snapshots := [⟨0, [("n", 3)], [("n", 3)]⟩] }

/-- The post-fetch state of `staleService`. -/
def staleServiceAfterFetch : SignalService :=
  match latestSnapshot staleService with
  | Except.ok p => p.2
  | Except.error _ => staleService

/-- C6 counterexample: evaluating at time 10 against a snapshot of age 10
(threshold 5) reports the stale outcome and increments the counter, but
the tracked-lane set has grown (from `[]` to `["n"]`) and the per-lane
activity state was updated — the abort does not happen before those
updates as the claim states. -/
theorem stale_abort_mutates_cex :
    (evaluate_cycle staleService 10 false).2 = Except.error StepError.stale ∧
    staleService.store.lanes = [] ∧
    (evaluate_cycle staleService 10 false).1.store.lanes = ["n"] ∧
    staleService.lane_total_timestamp "n" = none ∧
    (evaluate_cycle staleService 10 false).1.lane_total_timestamp "n" = some 0 ∧
    (evaluate_cycle staleService 10 false).1.stale_incidents = 1 := by
  have hsnap : latestSnapshot staleService =
      Except.ok (⟨0, [("n", 3)], [("n", 3)]⟩, staleServiceAfterFetch) := rfl
  have heq := evaluate_stale_eq staleService 10 ⟨0, [("n", 3)], [("n", 3)]⟩
    staleServiceAfterFetch hsnap
    ⟨(by norm_num : (0 : ℚ) < 5), (by norm_num : (5 : ℚ) < 10 - 0)⟩
  rw [heq]
  exact ⟨rfl, rfl, rfl, rfl, rfl, rfl⟩

/-- C6 witness: the amended theorem applied to the concrete stale run. -/
theorem stale_telemetry_abort_witness :
    (0 : ℚ) < staleService.telemetry_stale_after ∧
    evaluate_cycle staleService 10 false =
      ({ staleServiceAfterFetch with
          stale_incidents := staleServiceAfterFetch.stale_incidents + 1 },
       Except.error StepError.stale) := by
  have hsnap : latestSnapshot staleService =
      Except.ok (⟨0, [("n", 3)], [("n", 3)]⟩, staleServiceAfterFetch) := rfl
  have h := stale_telemetry_abort staleService 10 ⟨0, [("n", 3)], [("n", 3)]⟩
    staleServiceAfterFetch hsnap ((by norm_num : (0 : ℚ) < 5))
    ((by norm_num : (5 : ℚ) < 10 - 0))
  exact ⟨(by norm_num : (0 : ℚ) < 5), h.1⟩

theorem evalBreakdowns_lane_mem {svc1 : SignalService} {snap : LaneSnapshot}
    {b : PriorityBreakdown} (hb : b ∈ evalBreakdowns svc1 snap) :
    b.lane ∈ svc1.store.lanes := by
  unfold evalBreakdowns score_lanes at hb
  have hb2 := (sortByKeyDesc_perm _).mem_iff.mp hb
  obtain ⟨l, hl, rfl⟩ := List.mem_map.mp hb2
  exact hl

theorem dictInsert_mem {acc : List PriorityBreakdown}
    {x b : PriorityBreakdown} (hb : b ∈ dictInsert acc x) :
    b ∈ acc ∨ b = x := by
  unfold dictInsert at hb
  by_cases hc : (acc.map (fun y => y.lane)).contains x.lane
  · rw [if_pos hc] at hb
    obtain ⟨y, hy, hyb⟩ := List.mem_map.mp hb
    by_cases hyl : y.lane = x.lane
    · rw [if_pos hyl] at hyb
      exact Or.inr hyb.symm
    · rw [if_neg hyl] at hyb
      exact Or.inl (hyb ▸ hy)
  · rw [if_neg hc] at hb
    rcases List.mem_append.mp hb with h | h
    · exact Or.inl h
    · exact Or.inr (List.mem_singleton.mp h)

theorem foldl_dictInsert_mem :
    ∀ (l acc : List PriorityBreakdown) (b : PriorityBreakdown),
      b ∈ List.foldl dictInsert acc l → b ∈ acc ∨ b ∈ l := by
  intro l
  induction l with
  | nil => exact fun acc b h => Or.inl h
  | cons x l ih =>
      intro acc b h
      rcases ih (dictInsert acc x) b h with h2 | h2
      · rcases dictInsert_mem h2 with h3 | h3
        · exact Or.inl h3
        · exact Or.inr (List.mem_cons.mpr (Or.inl h3))
      · exact Or.inr (List.mem_cons.mpr (Or.inr h2))

theorem dictValues_mem {l : List PriorityBreakdown} {b : PriorityBreakdown}
    (h : b ∈ dictValues l) : b ∈ l := by
  rcases foldl_dictInsert_mem l [] b h with h2 | h2
  · simp at h2
  · exact h2

theorem next_cycle_green_lane_mem {cfg : SchedulerConfig}
    {st : SchedulerState} {ps : List PriorityBreakdown} {t : ℚ}
    {d : CycleDecision} {st2 : SchedulerState}
    (h : next_cycle cfg st ps t = some (d, st2)) :
    ∃ c ∈ ps, d.green_lane = c.lane := by
  obtain ⟨chosen, hpick, hd, _⟩ := next_cycle_some_elim h
  exact ⟨chosen, (sortByKeyDesc_perm ps).mem_iff.mp (pickGreen_mem hpick),
    by rw [hd]⟩

/-- C2 counterexample: with no telemetry ingested, `step` propagates the
no-telemetry `RuntimeError` to its caller instead of converting it into a
non-raising outcome — `SignalService.step` contains no handler. -/
theorem step_propagates_error_cex :
    (step emptyService 0).2 = Except.error StepError.noTelemetry := rfl

/-- C2 (amended): every `step` call terminates in one of the defined
outcomes — a new decision, the no-new-decision result, or a raised
no-telemetry / stale / defensive empty-priorities error which propagates
to the caller (the app-layer poller, which catches `RuntimeError`
outside `SignalService`); in particular the unknown-lane configuration
error can never arise from `step`, because the chosen green lane always
comes from the tracked-lane set that was scored. -/
theorem step_defined_outcomes (svc : SignalService) (now : ℚ) :
    (step svc now).2 = Except.ok none ∨
    (∃ d, (step svc now).2 = Except.ok (some d)) ∨
    (step svc now).2 = Except.error StepError.noTelemetry ∨
    (step svc now).2 = Except.error StepError.stale ∨
    (step svc now).2 = Except.error StepError.emptyPriorities := by
  have heval : ∀ svcE : SignalService,
      (evaluate_cycle svcE now false).2 = Except.error StepError.noTelemetry ∨
      (evaluate_cycle svcE now false).2 = Except.error StepError.stale ∨
      (evaluate_cycle svcE now false).2 = Except.error StepError.emptyPriorities ∨
      ∃ d, (evaluate_cycle svcE now false).2 = Except.ok d := by
    intro svcE
    unfold evaluate_cycle
    split
    · rename_i e heq
      rw [latestSnapshot_error_eq heq]
      left
      rfl
    · rename_i snap2 svc2 heq
      split
      · right; left; rfl
      · rename_i hnst
        split
        · right; right; left; rfl
        · rename_i d sched2 hnc
          obtain ⟨c, hc, hgl⟩ := next_cycle_green_lane_mem hnc
          have hlane : d.green_lane ∈ svc2.store.lanes := by
            rw [hgl]
            exact evalBreakdowns_lane_mem (dictValues_mem hc)
          split
          · rename_i hmk
            unfold mark_green at hmk
            rw [if_pos hlane] at hmk
            exact absurd hmk (by simp)
          · right; right; right
            exact ⟨d, rfl⟩
  unfold step
  split
  · rename_i d heq
    split
    · left; rfl
    · rcases heval (applyTick svc now) with h | h | h | ⟨d2, h⟩
      · right; right; left
        rw [h]
        rfl
      · right; right; right; left
        rw [h]
        rfl
      · right; right; right; right
        rw [h]
        rfl
      · right; left
        exact ⟨d2, by rw [h]; rfl⟩
  · rename_i heq
    rcases heval (applyTick svc now) with h | h | h | ⟨d2, h⟩
    · right; right; left
      rw [h]
      rfl
    · right; right; right; left
      rw [h]
      rfl
    · right; right; right; right
      rw [h]
      rfl
    · right; left
      exact ⟨d2, by rw [h]; rfl⟩

end TrafficOpt
